import Mathlib

/-!
Verification of the cross-chain bridge core (asset registry, transaction
state machine, security policy engine, route optimizer) against its
natural-language specification.  The TypeScript classes are shallowly
embedded: each JavaScript `Map` becomes an association list, `bigint`
becomes `Int`, `Date.now()` becomes an explicit `now` argument, and every
method that can `throw` returns `Except Err _`, so that a failing call
leaves the state of the caller untouched exactly as an exception does.
-/

namespace Bridge

/-- Error kinds thrown by the source (`BridgeError`, `AssetError`,
`SecurityError`, `ValidationError` classes in `types/index.ts`). -/
inductive Err where
  | bridgeError (msg : String)
  | assetError (msg : String)
  | securityError (msg : String)
  | validationError (msg : String)
  deriving Repr, DecidableEq

deriving instance DecidableEq for Except

/-- True when an `Except` result is an `AssetError` failure. -/
def isAssetErr {α : Type} : Except Err α → Bool
  | .error (.assetError _) => true
  | _ => false

/-- True when an `Except` result is a `BridgeError` failure. -/
def isBridgeErr {α : Type} : Except Err α → Bool
  | .error (.bridgeError _) => true
  | _ => false

/-- Lookup in an association list, modelling `Map.get`. -/
def mapFind {α : Type} : List (String × α) → String → Option α
  | [], _ => none
  | p :: rest, k => if p.1 = k then some p.2 else mapFind rest k

/-- Modelling `Map.has`. -/
def mapHas {α : Type} (m : List (String × α)) (k : String) : Bool :=
  (mapFind m k).isSome

/-- Modelling `Map.set`: replace the binding in place when the key is
present, append it otherwise (a JavaScript `Map` keeps insertion order). -/
def mapSet {α : Type} (m : List (String × α)) (k : String) (v : α) : List (String × α) :=
  if mapHas m k then m.map (fun p => if p.1 = k then (k, v) else p)
  else m ++ [(k, v)]

/-- Modelling `Map.delete`. -/
def mapErase {α : Type} (m : List (String × α)) (k : String) : List (String × α) :=
  m.filter (fun p => !(decide (p.1 = k)))

/-- Embedding of `TransactionStatus` enum from `types/index.ts`. -/
inductive TransactionStatus where
  | PENDING | LOCKED | MINTED | BURNED | UNLOCKED | FAILED | CANCELLED
  deriving Repr, DecidableEq

/-- Embedding of `AssetInfo` record from `types/index.ts` (amounts are `bigint`). -/
structure AssetInfo where
  tokenAddress : String
  symbol : String
  decimals : Nat
  lockedAmount : Int
  mintedAmount : Int
  isActive : Bool
  lastUpdate : Nat
  deriving Repr, DecidableEq

/-- Embedding of `ValidatorInfo` record from `types/index.ts`. -/
structure ValidatorInfo where
  validatorAddress : String
  stakeAmount : Int
  isActive : Bool
  lastValidation : Nat
  slashedAmount : Int
  deriving Repr, DecidableEq

/-- Transaction record as constructed by the bridges
(`{symbol, amount, sender, recipient, sourceChain, targetChain, timestamp,
status, validatorSignatures}`). -/
structure Transaction where
  symbol : String
  amount : Int
  sender : String
  recipient : String
  sourceChain : String
  targetChain : String
  timestamp : Nat
  status : TransactionStatus
  validatorSignatures : List String
  deriving Repr, DecidableEq

/-- State of the `MasterBridge` class (`bridges/AssetManager.ts`).  The
one-time set-up flag and its two set-up methods are omitted: no
operation below reads them. -/
structure MasterBridge where
  bridgeId : String
  validators : List (String × ValidatorInfo)
  assets : List (String × AssetInfo)
  transactions : List (String × Transaction)
  paused : Bool
  deriving Repr, DecidableEq

namespace MasterBridge

/-- Embedding of `MasterBridge.registerAsset`. -/
def registerAsset (b : MasterBridge) (symbol tokenAddress : String) (now : Nat) :
    Except Err MasterBridge :=
  if b.paused then .error (.bridgeError "Bridge is paused")
  else if mapHas b.assets symbol then
    .error (.bridgeError s!"Asset {symbol} already registered")
  else
    let a : AssetInfo := { tokenAddress := tokenAddress, symbol := symbol,
                           decimals := 18, lockedAmount := 0, mintedAmount := 0,
                           isActive := true, lastUpdate := now }
    .ok { b with assets := mapSet b.assets symbol a }

/-- Embedding of `MasterBridge.unregisterAsset`. -/
def unregisterAsset (b : MasterBridge) (symbol : String) : Except Err MasterBridge :=
  if b.paused then .error (.bridgeError "Bridge is paused")
  else if !(mapHas b.assets symbol) then
    .error (.bridgeError s!"Asset {symbol} not registered")
  else .ok { b with assets := mapErase b.assets symbol }

/-- Embedding of `MasterBridge.lockTokens`. -/
def lockTokens (b : MasterBridge) (symbol : String) (amount : Int) (now : Nat) :
    Except Err MasterBridge :=
  if b.paused then .error (.bridgeError "Bridge is paused")
  else match mapFind b.assets symbol with
    | none => .error (.bridgeError s!"Asset {symbol} not registered")
    | some asset =>
      let a := { asset with lockedAmount := asset.lockedAmount + amount, lastUpdate := now }
      .ok { b with assets := mapSet b.assets symbol a }

/-- Embedding of `MasterBridge.unlockTokens`. -/
def unlockTokens (b : MasterBridge) (symbol : String) (amount : Int) (now : Nat) :
    Except Err MasterBridge :=
  if b.paused then .error (.bridgeError "Bridge is paused")
  else match mapFind b.assets symbol with
    | none => .error (.bridgeError s!"Asset {symbol} not registered")
    | some asset =>
      if asset.lockedAmount < amount then
        .error (.bridgeError s!"Insufficient locked amount for {symbol}")
      else
        let a := { asset with lockedAmount := asset.lockedAmount - amount, lastUpdate := now }
        .ok { b with assets := mapSet b.assets symbol a }

/-- Embedding of `MasterBridge.mintTokens`. -/
def mintTokens (b : MasterBridge) (symbol : String) (amount : Int) (now : Nat) :
    Except Err MasterBridge :=
  if b.paused then .error (.bridgeError "Bridge is paused")
  else match mapFind b.assets symbol with
    | none => .error (.bridgeError s!"Asset {symbol} not registered")
    | some asset =>
      let a := { asset with mintedAmount := asset.mintedAmount + amount, lastUpdate := now }
      .ok { b with assets := mapSet b.assets symbol a }

/-- Embedding of `MasterBridge.burnTokens`. -/
def burnTokens (b : MasterBridge) (symbol : String) (amount : Int) (now : Nat) :
    Except Err MasterBridge :=
  if b.paused then .error (.bridgeError "Bridge is paused")
  else match mapFind b.assets symbol with
    | none => .error (.bridgeError s!"Asset {symbol} not registered")
    | some asset =>
      if asset.mintedAmount < amount then
        .error (.bridgeError s!"Insufficient minted amount for {symbol}")
      else
        let a := { asset with mintedAmount := asset.mintedAmount - amount, lastUpdate := now }
        .ok { b with assets := mapSet b.assets symbol a }

/-- Embedding of `MasterBridge.processTransaction`.  The source is a stub: after the
paused / not-found / not-pending guards it unconditionally sets the status
to `LOCKED` (the comment in the source reads "Process transaction logic
here"). -/
def processTransaction (b : MasterBridge) (txHash : String) : Except Err MasterBridge :=
  if b.paused then .error (.bridgeError "Bridge is paused")
  else match mapFind b.transactions txHash with
    | none => .error (.bridgeError s!"Transaction {txHash} not found")
    | some transaction =>
      if transaction.status ≠ TransactionStatus.PENDING then
        .error (.bridgeError s!"Transaction {txHash} is not pending")
      else
        let t := { transaction with status := TransactionStatus.LOCKED }
        .ok { b with transactions := mapSet b.transactions txHash t }

/-- Embedding of `MasterBridge.pause`. -/
def pause (b : MasterBridge) : MasterBridge := { b with paused := true }

/-- Embedding of `MasterBridge.unpause`. -/
def unpause (b : MasterBridge) : MasterBridge := { b with paused := false }

/-- Embedding of `MasterBridge.emergencyWithdraw`.  Note: the source has no paused
check here, unlike the other mutating operations. -/
def emergencyWithdraw (b : MasterBridge) (symbol : String) (now : Nat) :
    Except Err MasterBridge :=
  match mapFind b.assets symbol with
  | none => .error (.bridgeError s!"Asset {symbol} not registered")
  | some asset =>
    let a := { asset with lockedAmount := 0, mintedAmount := 0, lastUpdate := now }
    .ok { b with assets := mapSet b.assets symbol a }

end MasterBridge

/-- One lock/unlock/mint/burn request against a fixed symbol. -/
inductive AssetOp where
  | lock (amount : Int)
  | unlock (amount : Int)
  | mint (amount : Int)
  | burn (amount : Int)
  deriving Repr, DecidableEq

/-- The amount carried by an operation. -/
def AssetOp.amount : AssetOp → Int
  | .lock a => a
  | .unlock a => a
  | .mint a => a
  | .burn a => a

/-- Signed contribution of a successful operation to the conservation sum:
locks and mints count positively, unlocks and burns negatively. -/
def AssetOp.delta : AssetOp → Int
  | .lock a => a
  | .mint a => a
  | .unlock a => -a
  | .burn a => -a

/-- Dispatch an operation to the corresponding `MasterBridge` method. -/
def applyOp (b : MasterBridge) (symbol : String) : AssetOp → Nat → Except Err MasterBridge
  | .lock a, now => MasterBridge.lockTokens b symbol a now
  | .unlock a, now => MasterBridge.unlockTokens b symbol a now
  | .mint a, now => MasterBridge.mintTokens b symbol a now
  | .burn a, now => MasterBridge.burnTokens b symbol a now

/-- Run a sequence of timed operations.  A failed operation leaves the
state unchanged (the exception is raised before any mutation) and does
not count toward the conservation sum.  Returns the final state together
with the net sum of the successful operations. -/
def runOps (b : MasterBridge) (symbol : String) : List (AssetOp × Nat) → MasterBridge × Int
  | [] => (b, 0)
  | (op, t) :: rest =>
    match applyOp b symbol op t with
    | .ok b2 =>
      let r := runOps b2 symbol rest
      (r.1, op.delta + r.2)
    | .error _ => runOps b symbol rest

/-- State of the `AssetManager` class (`bridges/AssetManager.ts`): the
asset registry proper, with its two key maps. -/
structure AssetManager where
  assets : List (String × AssetInfo)
  tokenAddresses : List (String × String)
  deriving Repr, DecidableEq

namespace AssetManager

/-- Embedding of `AssetManager.registerAsset`. -/
def registerAsset (am : AssetManager) (symbol tokenAddress : String) (now : Nat) :
    Except Err AssetManager :=
  if mapHas am.assets symbol then
    .error (.assetError s!"Asset {symbol} already registered")
  else if mapHas am.tokenAddresses tokenAddress then
    .error (.assetError s!"Token address {tokenAddress} already registered")
  else
    let a : AssetInfo := { tokenAddress := tokenAddress, symbol := symbol,
                           decimals := 18, lockedAmount := 0, mintedAmount := 0,
                           isActive := true, lastUpdate := now }
    .ok { assets := mapSet am.assets symbol a,
          tokenAddresses := mapSet am.tokenAddresses tokenAddress symbol }

/-- Embedding of `AssetManager.unregisterAsset`. -/
def unregisterAsset (am : AssetManager) (symbol : String) : Except Err AssetManager :=
  match mapFind am.assets symbol with
  | none => .error (.assetError s!"Asset {symbol} not registered")
  | some asset =>
    .ok { assets := mapErase am.assets symbol,
          tokenAddresses := mapErase am.tokenAddresses asset.tokenAddress }

/-- Embedding of `AssetManager.getAssetAddress`. -/
def getAssetAddress (am : AssetManager) (symbol : String) : Except Err String :=
  match mapFind am.assets symbol with
  | none => .error (.assetError s!"Asset {symbol} not registered")
  | some asset => .ok asset.tokenAddress

/-- Embedding of `AssetManager.getLockedBalance`. -/
def getLockedBalance (am : AssetManager) (symbol : String) : Except Err Int :=
  match mapFind am.assets symbol with
  | none => .error (.assetError s!"Asset {symbol} not registered")
  | some asset => .ok asset.lockedAmount

/-- Embedding of `AssetManager.getTotalSupply`: locked plus minted amount. -/
def getTotalSupply (am : AssetManager) (symbol : String) : Except Err Int :=
  match mapFind am.assets symbol with
  | none => .error (.assetError s!"Asset {symbol} not registered")
  | some asset => .ok (asset.lockedAmount + asset.mintedAmount)

end AssetManager

/-- Model of `ethers.keccak256` over a string payload.  Every theorem
below uses only that the hash is a deterministic function of its input,
so it is modelled as an injective tagging function, not a real digest. -/
def keccak256 (s : String) : String := "keccak:" ++ s

/-- Model of JavaScript `toLowerCase` as applied to address strings
(character-wise lowercasing of the underlying character list). -/
def lower (s : String) : String := String.mk (s.data.map Char.toLower)

/-- Model of `Set.prototype.add` on the `uniqueSigners` set: append the
element when it is not already present. -/
def insertUniq (acc : List String) (x : String) : List String :=
  if x ∈ acc then acc else acc ++ [x]

/-- Embedding of `SecurityConfig` from `SecurityManager.ts`; the nested `rateLimit`
object is flattened into the two `rateLimit*` fields. -/
structure SecurityConfig where
  multiSigThreshold : Nat
  rateLimitMaxTransactions : Nat
  rateLimitTimeWindow : Int
  emergencyDelay : Int
  maxGasPrice : Int
  blacklistEnabled : Bool
  whitelistEnabled : Bool
  deriving Repr, DecidableEq

/-- Embedding of `SignatureData` from `SecurityManager.ts`. -/
structure SignatureData where
  signer : String
  timestamp : Int
  signature : String
  deriving Repr, DecidableEq

/-- State of the `SecurityManager` class.  The ethers provider is unused
by the operations modelled here; `ethers.verifyMessage` is passed in as
an explicit `recover` function. -/
structure SecurityManager where
  config : SecurityConfig
  signers : List (String × Bool)
  transactionHistory : List (String × List Int)
  emergencyMode : Bool
  blacklist : List String
  whitelist : List String
  lastEmergencyTrigger : Int
  deriving Repr, DecidableEq

namespace SecurityManager

/-- Loop body of `validateSignatures`: walk the signature list, throwing
`SecurityError` on an expired (older than one hour) or unauthorized
signature, and accumulating the set of distinct recovered signer
addresses (the `uniqueSigners` set of the source). -/
def collectSigners (sm : SecurityManager) (recover : String → String → String)
    (message : String) (now : Int) :
    List SignatureData → List String → Except Err (List String)
  | [], acc => .ok acc
  | sigData :: rest, acc =>
    if now - sigData.timestamp > 3600000 then
      .error (.securityError "Signature expired")
    else
      let recoveredAddress := lower (recover message sigData.signature)
      if !(mapHas sm.signers recoveredAddress) then
        .error (.securityError "Unauthorized signer")
      else
        collectSigners sm recover message now rest (insertUniq acc recoveredAddress)

/-- Embedding of `SecurityManager.validateSignatures`. -/
def validateSignatures (sm : SecurityManager) (recover : String → String → String)
    (txHash : String) (signatures : List SignatureData) (now : Int) : Except Err Bool :=
  if signatures.length < sm.config.multiSigThreshold then .ok false
  else
    match collectSigners sm recover (keccak256 txHash) now signatures [] with
    | .error e => .error e
    | .ok uniqueSigners => .ok (decide (sm.config.multiSigThreshold ≤ uniqueSigners.length))

/-- Embedding of `SecurityManager.checkRateLimit`: returns the check outcome together
with the state updated by the sliding-window cleanup write. -/
def checkRateLimit (sm : SecurityManager) (address : String) (now : Int) :
    Bool × SecurityManager :=
  let history := (mapFind sm.transactionHistory (lower address)).getD []
  let recentHistory := history.filter (fun timestamp =>
    decide (now - timestamp < sm.config.rateLimitTimeWindow))
  (decide (recentHistory.length < sm.config.rateLimitMaxTransactions),
   { sm with transactionHistory := mapSet sm.transactionHistory (lower address) recentHistory })

/-- Embedding of `SecurityManager.recordTransaction`. -/
def recordTransaction (sm : SecurityManager) (address : String) (now : Int) :
    SecurityManager :=
  let history := (mapFind sm.transactionHistory (lower address)).getD []
  { sm with transactionHistory := mapSet sm.transactionHistory (lower address) (history ++ [now]) }

/-- Embedding of `SecurityManager.isBlacklisted`. -/
def isBlacklisted (sm : SecurityManager) (address : String) : Bool :=
  sm.blacklist.contains (lower address)

/-- Embedding of `SecurityManager.isWhitelisted`. -/
def isWhitelisted (sm : SecurityManager) (address : String) : Bool :=
  if !sm.config.whitelistEnabled then true
  else sm.whitelist.contains (lower address)

/-- Embedding of `SecurityManager.validateTransaction`.  On success it returns `true`
together with the state updated by the rate-limit cleanup; the cleanup
write that precedes a thrown `SecurityError` is dropped by the `Except`
embedding (it removes only entries every later check would filter out
anyway, so it is unobservable to the properties proved here). -/
def validateTransaction (sm : SecurityManager) (fromAddr toAddr : String)
    (amount gasPrice : Int) (now : Int) : Except Err (Bool × SecurityManager) :=
  if sm.emergencyMode then .error (.securityError "System is in emergency mode")
  else if sm.config.blacklistEnabled
      && (isBlacklisted sm fromAddr || isBlacklisted sm toAddr) then
    .error (.securityError "Address is blacklisted")
  else if sm.config.whitelistEnabled
      && (!(isWhitelisted sm fromAddr) || !(isWhitelisted sm toAddr)) then
    .error (.securityError "Address is not whitelisted")
  else
    let rl := checkRateLimit sm fromAddr now
    if !rl.1 then .error (.securityError "Rate limit exceeded")
    else if gasPrice > sm.config.maxGasPrice then
      .error (.securityError "Gas price too high")
    else .ok (true, rl.2)

end SecurityManager

/-- Spec-side count used by claim C5: the number of distinct, unexpired
(strictly less than one hour old), authorized recovered signer
identities in a signature list, exactly as the claim words it. -/
def claimValidSignerCount (sm : SecurityManager) (recover : String → String → String)
    (txHash : String) (signatures : List SignatureData) (now : Int) : Nat :=
  ((signatures.filter (fun s =>
      decide (now - s.timestamp < 3600000)
      && mapHas sm.signers (lower (recover (keccak256 txHash) s.signature)))).map
    (fun s => lower (recover (keccak256 txHash) s.signature))).dedup.length

/-- Embedding of `AvalancheAsset` from `types/index.ts`. -/
structure AvalancheAsset where
  address : String
  symbol : String
  decimals : Nat
  name : String
  isNative : Bool
  deriving Repr, DecidableEq

/-- State of the `AvalancheBridge` class; chain reads (receipts) are
supplied as explicit arguments where a method performs them. -/
structure AvalancheBridge where
  bridgeId : String
  assets : List (String × AvalancheAsset)
  transactions : List (String × Transaction)
  paused : Bool
  deriving Repr, DecidableEq

/-- Model of the calldata `ethers` builds for
`contract.transfer.populateTransaction(recipient, amount)`: a
deterministic encoding of the method, recipient and amount (the token
contract address goes into the `to` field, not into `data`). -/
def transferData (recipient : String) (amount : Int) : String :=
  s!"transfer({recipient},{amount})"

namespace AvalancheBridge

/-- Embedding of `AvalancheBridge.lockTokens`: populates an ERC-20 `transfer`, keys
the pending record by `keccak256(tx.data)` and stores it with `Map.set`
— overwriting whatever record already sits at that hash. -/
def lockTokens (av : AvalancheBridge) (symbol : String) (amount : Int) (now : Nat) :
    Except Err AvalancheBridge :=
  if av.paused then .error (.bridgeError "Bridge is paused")
  else match mapFind av.assets symbol with
    | none => .error (.bridgeError s!"Asset {symbol} not registered")
    | some _ =>
      let txHash := keccak256 (transferData av.bridgeId amount)
      let t : Transaction :=
        { symbol := symbol, amount := amount, sender := av.bridgeId,
          recipient := av.bridgeId, sourceChain := "Avalanche", targetChain := "",
          timestamp := now, status := TransactionStatus.PENDING,
          validatorSignatures := [] }
      .ok { av with transactions := mapSet av.transactions txHash t }

/-- Embedding of `AvalancheBridge.processTransaction`.  The chain receipt for the hash
is supplied by the environment: `none` when `getTransactionReceipt`
returns null, `some true`/`some false` for success/failure status. -/
def processTransaction (av : AvalancheBridge) (txHash : String) (receipt : Option Bool) :
    Except Err AvalancheBridge :=
  if av.paused then .error (.bridgeError "Bridge is paused")
  else match mapFind av.transactions txHash with
    | none => .error (.bridgeError s!"Transaction {txHash} not found")
    | some transaction =>
      if transaction.status ≠ TransactionStatus.PENDING then
        .error (.bridgeError s!"Transaction {txHash} is not pending")
      else match receipt with
        | none =>
          .error (.bridgeError s!"Failed to process transaction: Transaction {txHash} not found on chain")
        | some true =>
          let t := { transaction with status := TransactionStatus.LOCKED }
          .ok { av with transactions := mapSet av.transactions txHash t }
        | some false =>
          let t := { transaction with status := TransactionStatus.FAILED }
          .ok { av with transactions := mapSet av.transactions txHash t }

end AvalancheBridge

/-- State of the `AvalancheCeloBridge` class (`unnamed/part_005`),
restricted to the fields its `emergencyWithdraw` reads; the source field
named after bridge initialization is called `initDone` here. -/
structure AvalancheCeloBridge where
  initDone : Bool
  isPaused : Bool
  assetManager : AssetManager
  deriving Repr, DecidableEq

/-- Embedding of `AvalancheCeloBridge.emergencyWithdraw`: unlike `MasterBridge`, this
implementation rejects the call whenever the bridge is not paused.  The
source performs no mutation after the guards (it only reads the token
address and locked balance), so the embedding returns those reads. -/
def AvalancheCeloBridge.emergencyWithdraw (br : AvalancheCeloBridge) (symbol : String) :
    Except Err (String × Int) :=
  if !br.initDone then .error (.bridgeError "Bridge not initialized")
  else if !br.isPaused then
    .error (.bridgeError "Bridge must be paused for emergency withdrawal")
  else
    match AssetManager.getAssetAddress br.assetManager symbol with
    | .error e => .error e
    | .ok tokenAddress =>
      match AssetManager.getLockedBalance br.assetManager symbol with
      | .error e => .error e
      | .ok balance => .ok (tokenAddress, balance)

/-- Embedding of `SecurityLevel` enum (`LOW = 1, MEDIUM = 2, HIGH = 3`). -/
inductive SecurityLevel where
  | LOW | MEDIUM | HIGH
  deriving Repr, DecidableEq

/-- Numeric value of a security level, as in the TypeScript enum. -/
def SecurityLevel.toNum : SecurityLevel → ℚ
  | .LOW => 1
  | .MEDIUM => 2
  | .HIGH => 3

/-- Embedding of `FeeStructure` from `CrossChainOptimizer.ts`.  `bigint` fields become
`Int`; the floating-point `percentageFee` becomes an exact rational. -/
structure FeeStructure where
  baseFee : Int
  percentageFee : ℚ
  minFee : Int
  maxFee : Int
  deriving Repr, DecidableEq

/-- Embedding of `BridgeProtocol` from `CrossChainOptimizer.ts`. -/
structure BridgeProtocol where
  name : String
  address : String
  supportedTokens : List String
  feeStructure : FeeStructure
  securityLevel : SecurityLevel
  estimatedTime : ℚ
  deriving Repr, DecidableEq

/-- Embedding of `BridgeRoute` from `CrossChainOptimizer.ts`. -/
structure BridgeRoute where
  fromChain : Int
  toChain : Int
  bridgeAddress : String
  supportedTokens : List String
  fee : Int
  estimatedTime : ℚ
  protocols : List BridgeProtocol
  deriving Repr, DecidableEq

/-- State of the `CrossChainOptimizer` class restricted to the fields
`selectOptimalProtocol` reads. -/
structure CrossChainOptimizer where
  bridgeRoutes : List (String × BridgeRoute)
  deriving Repr, DecidableEq

namespace CrossChainOptimizer

/-- Embedding of `FEE_WEIGHT = 0.4`, modelled as an exact rational. -/
def FEE_WEIGHT : ℚ := 4 / 10

/-- Embedding of `TIME_WEIGHT = 0.3`. -/
def TIME_WEIGHT : ℚ := 3 / 10

/-- Embedding of `SECURITY_WEIGHT = 0.3`. -/
def SECURITY_WEIGHT : ℚ := 3 / 10

/-- Embedding of `CrossChainOptimizer.calculateSecurityScore`:
`securityLevel / SecurityLevel.HIGH`. -/
def calculateSecurityScore (protocol : BridgeProtocol) : ℚ :=
  protocol.securityLevel.toNum / SecurityLevel.HIGH.toNum

/-- Embedding of `CrossChainOptimizer.calculateRouteScore`.  The floating-point
arithmetic of the source is modelled over exact rationals. -/
def calculateRouteScore (fee : Int) (time : ℚ) (security : ℚ) : ℚ :=
  let normalizedFee := (fee : ℚ) / ((10 : ℚ) ^ 18)
  let normalizedTime := time / 600
  FEE_WEIGHT * (1 - normalizedFee)
    + TIME_WEIGHT * (1 - normalizedTime)
    + SECURITY_WEIGHT * security

/-- Embedding of `CrossChainOptimizer.estimateProtocolFee`: base fee plus the floored
percentage amount, clamped to the min/max bounds. -/
def estimateProtocolFee (protocol : BridgeProtocol) : Int :=
  let percentageAmount :=
    Int.floor ((protocol.feeStructure.baseFee : ℚ) * protocol.feeStructure.percentageFee)
  let fee := protocol.feeStructure.baseFee + percentageAmount
  let feeClampedLow := if fee < protocol.feeStructure.minFee then protocol.feeStructure.minFee else fee
  if feeClampedLow > protocol.feeStructure.maxFee then protocol.feeStructure.maxFee else feeClampedLow

/-- Overall score a protocol receives inside `selectOptimalProtocol`. -/
def protocolScore (protocol : BridgeProtocol) : ℚ :=
  calculateRouteScore (estimateProtocolFee protocol) protocol.estimatedTime
    (calculateSecurityScore protocol)

/-- The candidate filter of `selectOptimalProtocol`: keep protocols whose
security level meets the preference and which support the token. -/
def availableProtocols (route : BridgeRoute) (tokenAddress : String)
    (securityPreference : SecurityLevel) : List BridgeProtocol :=
  route.protocols.filter (fun protocol =>
    decide (securityPreference.toNum ≤ protocol.securityLevel.toNum)
    && protocol.supportedTokens.contains tokenAddress)

/-- Embedding of `Array.prototype.reduce` with
`(best, current) => current.score > best.score ? current : best`. -/
def reduceBest (best : BridgeProtocol × ℚ) :
    List (BridgeProtocol × ℚ) → BridgeProtocol × ℚ
  | [] => best
  | current :: rest => reduceBest (if best.2 < current.2 then current else best) rest

/-- Embedding of `CrossChainOptimizer.selectOptimalProtocol`.  The `reduce` of the
source starts from the first scored entry (JavaScript `reduce` without an
initial value). -/
def selectOptimalProtocol (opt : CrossChainOptimizer) (fromChain toChain : Int)
    (tokenAddress : String) (securityPreference : SecurityLevel) :
    Except Err BridgeProtocol :=
  let routeKey := s!"{fromChain}-{toChain}"
  match mapFind opt.bridgeRoutes routeKey with
  | none => .error (.bridgeError "No bridge route found between chains")
  | some route =>
    match availableProtocols route tokenAddress securityPreference with
    | [] => .error (.bridgeError "No suitable bridge protocol found")
    | p0 :: prest =>
      .ok (reduceBest (p0, protocolScore p0)
        (prest.map (fun protocol => (protocol, protocolScore protocol)))).1

end CrossChainOptimizer

/-! Concrete sample states used by the per-claim example theorems. -/

/-- Pending transaction with an empty signature list (claim C2). -/
def txC2 : Transaction :=
  { symbol := "USDC", amount := 100, sender := "0xsender", recipient := "0xrecipient",
    sourceChain := "A", targetChain := "B", timestamp := 5,
    status := TransactionStatus.PENDING, validatorSignatures := [] }

/-- Bridge with no validators and one pending unconfirmed transaction. -/
def mbC2 : MasterBridge :=
  { bridgeId := "master", validators := [], assets := [],
    transactions := [("0xhash1", txC2)], paused := false }

/-- The state `processTransaction` produces from `mbC2`. -/
def mbC2after : MasterBridge :=
  { mbC2 with transactions :=
      [("0xhash1", { txC2 with status := TransactionStatus.LOCKED })] }

/-- Unpaused bridge holding a funded asset (claim C8). -/
def assetC8 : AssetInfo :=
  { tokenAddress := "0xUSDC", symbol := "USDC", decimals := 18,
    lockedAmount := 100, mintedAmount := 5, isActive := true, lastUpdate := 0 }

/-- MasterBridge state for claim C8: not paused. -/
def mbC8 : MasterBridge :=
  { bridgeId := "master", validators := [], assets := [("USDC", assetC8)],
    transactions := [], paused := false }

/-- The state `emergencyWithdraw` produces from `mbC8`. -/
def mbC8after : MasterBridge :=
  { mbC8 with assets :=
      [("USDC", { assetC8 with lockedAmount := 0, mintedAmount := 0, lastUpdate := 9 })] }

/-- AvalancheCeloBridge state for claim C8: initialized but not paused,
with the same asset registered in its registry. -/
def acbC8 : AvalancheCeloBridge :=
  { initDone := true, isPaused := false,
    assetManager := { assets := [("USDC", assetC8)],
                      tokenAddresses := [("0xUSDC", "USDC")] } }

/-- Funded asset for the C10 witness. -/
def assetC10 : AssetInfo :=
  { tokenAddress := "0xAAA", symbol := "USDC", decimals := 18,
    lockedAmount := 40, mintedAmount := 2, isActive := true, lastUpdate := 0 }

/-- Second asset whose balances must survive an emergency withdrawal. -/
def assetC10b : AssetInfo :=
  { tokenAddress := "0xBBB", symbol := "WETH", decimals := 18,
    lockedAmount := 7, mintedAmount := 1, isActive := true, lastUpdate := 0 }

/-- MasterBridge state for the C10 witness: two assets, one validator,
one transaction. -/
def mbC10 : MasterBridge :=
  { bridgeId := "master",
    validators := [("0xval", { validatorAddress := "0xval", stakeAmount := 0,
                               isActive := true, lastValidation := 0, slashedAmount := 0 })],
    assets := [("USDC", assetC10), ("WETH", assetC10b)],
    transactions := [("0xhash1", txC2)], paused := true }

/-- Empty unpaused bridge (claim C4 counterexample: unknown asset). -/
def mbC4empty : MasterBridge :=
  { bridgeId := "master", validators := [], assets := [],
    transactions := [], paused := false }

/-- The spec scenario of claim C4: register USDC, lock 100, lock 50,
unlock 120. -/
def mbC4run : Except Err MasterBridge :=
  (MasterBridge.registerAsset mbC4empty "USDC" "0xUSDC" 1).bind (fun b1 =>
    (MasterBridge.lockTokens b1 "USDC" 100 2).bind (fun b2 =>
      (MasterBridge.lockTokens b2 "USDC" 50 3).bind (fun b3 =>
        MasterBridge.unlockTokens b3 "USDC" 120 4)))

/-- The state the C4 scenario reaches: lockedAmount 30. -/
def mbC4after : MasterBridge :=
  { bridgeId := "master", validators := [],
    assets := [("USDC", { tokenAddress := "0xUSDC", symbol := "USDC", decimals := 18,
                          lockedAmount := 30, mintedAmount := 0, isActive := true,
                          lastUpdate := 4 })],
    transactions := [], paused := false }

/-- Freshly registered asset for the C1 witness. -/
def assetC1 : AssetInfo :=
  { tokenAddress := "0xUSDC", symbol := "USDC", decimals := 18,
    lockedAmount := 0, mintedAmount := 0, isActive := true, lastUpdate := 1 }

/-- Bridge state for the C1 witness. -/
def mbC1 : MasterBridge :=
  { bridgeId := "master", validators := [], assets := [("USDC", assetC1)],
    transactions := [], paused := false }

/-- Operation trace for the C1 witness; the fourth operation
(`unlock 31` against a locked balance of 30) fails and must not count. -/
def opsC1 : List (AssetOp × Nat) :=
  [(AssetOp.lock 100, 2), (AssetOp.lock 50, 3), (AssetOp.unlock 120, 4),
   (AssetOp.unlock 31, 5), (AssetOp.mint 5, 6), (AssetOp.burn 2, 7)]

/-- Registry holding one asset (claim C6 witness). -/
def amC6 : AssetManager :=
  { assets := [("USDC", { tokenAddress := "0xAAA", symbol := "USDC", decimals := 18,
                          lockedAmount := 0, mintedAmount := 0, isActive := true,
                          lastUpdate := 0 })],
    tokenAddresses := [("0xAAA", "USDC")] }

/-- Security manager with threshold 1 and a single authorized signer
`"a"` (claim C5). -/
def smC5 : SecurityManager :=
  { config := { multiSigThreshold := 1, rateLimitMaxTransactions := 10,
                rateLimitTimeWindow := 60000, emergencyDelay := 0,
                maxGasPrice := 1000, blacklistEnabled := false,
                whitelistEnabled := false },
    signers := [("a", true)], transactionHistory := [], emergencyMode := false,
    blacklist := [], whitelist := [], lastEmergencyTrigger := 0 }

/-- Concrete recovery function for the C5 examples: the signature string
itself is the recovered address. -/
def recoverId (message signature : String) : String := signature

/-- One valid signature plus one expired signature from the same signer. -/
def sigsC5a : List SignatureData :=
  [{ signer := "a", timestamp := 0, signature := "a" },
   { signer := "a", timestamp := -4000000, signature := "a" }]

/-- A single signature aged exactly one hour. -/
def sigsC5b : List SignatureData :=
  [{ signer := "a", timestamp := -3600000, signature := "a" }]

/-- Security manager for the C7 witness: at most 2 transactions per
1000 ms window, and the address `alice` already has 2 recorded
timestamps inside the window at time 30. -/
def smC7 : SecurityManager :=
  { config := { multiSigThreshold := 1, rateLimitMaxTransactions := 2,
                rateLimitTimeWindow := 1000, emergencyDelay := 0,
                maxGasPrice := 100, blacklistEnabled := false,
                whitelistEnabled := false },
    signers := [], transactionHistory := [("alice", [10, 20])],
    emergencyMode := false, blacklist := [], whitelist := [],
    lastEmergencyTrigger := 0 }

/-- Avalanche bridge ready to lock (claim C3). -/
def avC3 : AvalancheBridge :=
  { bridgeId := "avax-bridge",
    assets := [("USDC", { address := "0xUSDC", symbol := "USDC", decimals := 6,
                          name := "USD Coin", isNative := false })],
    transactions := [], paused := false }

/-- The hash both lock calls of the C3 scenario compute. -/
def hashC3 : String := keccak256 (transferData "avax-bridge" 100)

/-- C3 scenario step 1: lock 100 USDC, creating a PENDING record. -/
def avC3lock1 : Except Err AvalancheBridge :=
  AvalancheBridge.lockTokens avC3 "USDC" 100 10

/-- C3 scenario step 2: process it with a successful receipt (LOCKED). -/
def avC3processed : Except Err AvalancheBridge :=
  avC3lock1.bind (fun av => AvalancheBridge.processTransaction av hashC3 (some true))

/-- C3 scenario step 3: lock the same amount again; the recomputed hash
collides and the LOCKED record is overwritten back to PENDING. -/
def avC3lock2 : Except Err AvalancheBridge :=
  avC3processed.bind (fun av => AvalancheBridge.lockTokens av "USDC" 100 30)

/-- Status of the transaction at `h` inside an `AvalancheBridge`. -/
def avStatusAt (av : AvalancheBridge) (h : String) : Option TransactionStatus :=
  (mapFind av.transactions h).map Transaction.status

/-- High-security protocol (claim C9 witness); score 17/20. -/
def protoC9a : BridgeProtocol :=
  { name := "alpha", address := "0x1", supportedTokens := ["tok"],
    feeStructure := { baseFee := 0, percentageFee := 0, minFee := 0, maxFee := 0 },
    securityLevel := SecurityLevel.HIGH, estimatedTime := 300 }

/-- Identically scored protocol listed after `alpha` (tie case). -/
def protoC9b : BridgeProtocol :=
  { protoC9a with name := "beta", address := "0x2" }

/-- Lower-scoring protocol; score 3/5. -/
def protoC9c : BridgeProtocol :=
  { name := "gamma", address := "0x3", supportedTokens := ["tok"],
    feeStructure := { baseFee := 0, percentageFee := 0, minFee := 0, maxFee := 0 },
    securityLevel := SecurityLevel.MEDIUM, estimatedTime := 600 }

/-- Protocol filtered out by the security preference. -/
def protoC9d : BridgeProtocol :=
  { protoC9a with
    name := "delta", address := "0x4", securityLevel := SecurityLevel.LOW }

/-- Route between chains 1 and 2 carrying the four protocols. -/
def routeC9 : BridgeRoute :=
  { fromChain := 1, toChain := 2, bridgeAddress := "0xbridge",
    supportedTokens := ["tok"], fee := 0, estimatedTime := 300,
    protocols := [protoC9d, protoC9a, protoC9b, protoC9c] }

/-- Optimizer state for the C9 witness. -/
def optC9 : CrossChainOptimizer := { bridgeRoutes := [("1-2", routeC9)] }

/-- The asset record stored at `symbol` after an operation, when the
operation succeeded. -/
def assetAfter (r : Except Err MasterBridge) (symbol : String) : Option AssetInfo :=
  match r with
  | .error _ => none
  | .ok b => mapFind b.assets symbol

end Bridge

/-! Theorems.  First the association-list lemmas, then one theorem
per claim (with witnesses and counterexamples where required). -/

namespace Bridge

theorem mapFind_replace_self {α : Type} (m : List (String × α)) (k : String) (v : α) :
    mapFind (m.map (fun p => if p.1 = k then (k, v) else p)) k
      = (mapFind m k).map (fun _ => v) := by
  induction m with
  | nil => rfl
  | cons p rest ih =>
    by_cases hp : p.1 = k
    · simp [mapFind, hp]
    · simp [mapFind, hp, ih]

theorem mapFind_replace_ne {α : Type} (m : List (String × α)) (k k' : String) (v : α)
    (hne : k' ≠ k) :
    mapFind (m.map (fun p => if p.1 = k then (k, v) else p)) k' = mapFind m k' := by
  induction m with
  | nil => rfl
  | cons p rest ih =>
    by_cases hp : p.1 = k
    · have hk : ¬(k = k') := fun h => hne h.symm
      simp [mapFind, hp, hk, ih]
    · simp only [List.map_cons, if_neg hp, mapFind]
      by_cases hp2 : p.1 = k'
      · simp [hp2]
      · simp [hp2, ih]

theorem mapFind_append_left_none {α : Type} (m1 m2 : List (String × α)) (k : String)
    (h : mapFind m1 k = none) : mapFind (m1 ++ m2) k = mapFind m2 k := by
  induction m1 with
  | nil => rfl
  | cons p rest ih =>
    by_cases hp : p.1 = k
    · simp [mapFind, hp] at h
    · simp only [mapFind, if_neg hp] at h
      simp only [List.cons_append, mapFind, if_neg hp]
      exact ih h

theorem mapFind_mapSet_self {α : Type} (m : List (String × α)) (k : String) (v : α) :
    mapFind (mapSet m k v) k = some v := by
  unfold mapSet
  by_cases h : mapHas m k
  · rw [if_pos h, mapFind_replace_self]
    unfold mapHas at h
    cases hf : mapFind m k with
    | none => rw [hf] at h; simp at h
    | some a => simp
  · rw [if_neg h]
    unfold mapHas at h
    have hnone : mapFind m k = none := by
      cases hf : mapFind m k with
      | none => rfl
      | some a => rw [hf] at h; simp at h
    rw [mapFind_append_left_none m _ k hnone]
    simp [mapFind]

theorem mapFind_append_single_ne {α : Type} (m : List (String × α)) (k k' : String)
    (v : α) (hne : k' ≠ k) : mapFind (m ++ [(k, v)]) k' = mapFind m k' := by
  induction m with
  | nil =>
    have hk : ¬(k = k') := fun h2 => hne h2.symm
    simp [mapFind, hk]
  | cons p rest ih =>
    by_cases hp : p.1 = k'
    · simp [mapFind, hp]
    · simp only [List.cons_append, mapFind, if_neg hp]
      exact ih

theorem mapFind_mapSet_ne {α : Type} (m : List (String × α)) (k k' : String) (v : α)
    (hne : k' ≠ k) : mapFind (mapSet m k v) k' = mapFind m k' := by
  unfold mapSet
  by_cases h : mapHas m k
  · rw [if_pos h, mapFind_replace_ne m k k' v hne]
  · rw [if_neg h]
    exact mapFind_append_single_ne m k k' v hne

theorem mapFind_mapErase_self {α : Type} (m : List (String × α)) (k : String) :
    mapFind (mapErase m k) k = none := by
  induction m with
  | nil => rfl
  | cons p rest ih =>
    by_cases hp : p.1 = k
    · have hc : (!decide (p.1 = k)) = false := by simp [hp]
      simpa [mapErase, List.filter_cons, hc] using ih
    · have hc : (!decide (p.1 = k)) = true := by simp [hp]
      simpa [mapErase, List.filter_cons, hc, mapFind, hp] using ih

theorem mapFind_mapErase_ne {α : Type} (m : List (String × α)) (k k' : String)
    (hne : k' ≠ k) : mapFind (mapErase m k) k' = mapFind m k' := by
  induction m with
  | nil => rfl
  | cons p rest ih =>
    by_cases hp : p.1 = k
    · have hc : (!decide (p.1 = k)) = false := by simp [hp]
      have hk : ¬(p.1 = k') := by rw [hp]; exact fun h => hne h.symm
      simpa [mapErase, List.filter_cons, hc, mapFind, hk] using ih
    · have hc : (!decide (p.1 = k)) = true := by simp [hp]
      by_cases hp2 : p.1 = k'
      · simp [mapErase, List.filter_cons, hc, mapFind, hp2, hne]
      · simpa [mapErase, List.filter_cons, hc, mapFind, hp2] using ih

/-- Claim C2: the spec requires that `processTransaction` moves a
transaction from PENDING to a success state only when the chain
operation is confirmed successful and the multi-signature threshold of
distinct, unexpired, authorized signatures is reached.  The code
violates this: on `mbC2` — no validators, an empty
`validatorSignatures` list, and no chain receipt consulted at all —
`MasterBridge.processTransaction` succeeds and sets the status to
LOCKED. -/
theorem c2_processTransaction_no_consensus_check :
    mbC2.validators = []
    ∧ (mapFind mbC2.transactions "0xhash1").map Transaction.validatorSignatures = some []
    ∧ MasterBridge.processTransaction mbC2 "0xhash1" = .ok mbC2after
    ∧ (mapFind mbC2after.transactions "0xhash1").map Transaction.status
        = some TransactionStatus.LOCKED := by
  refine ⟨rfl, rfl, ?_, rfl⟩
  decide

/-- Claim C8: the spec requires `emergencyWithdraw` to fail with a
BridgeError whenever the bridge is not paused.  `MasterBridge` has no
such guard: on the unpaused `mbC8` the call succeeds and zeroes the
balances.  The sibling `AvalancheCeloBridge` implements exactly the
guard the spec asks for, confirming the intent. -/
theorem c8_emergencyWithdraw_ignores_pause :
    mbC8.paused = false
    ∧ MasterBridge.emergencyWithdraw mbC8 "USDC" 9 = .ok mbC8after
    ∧ (mapFind mbC8after.assets "USDC").map AssetInfo.lockedAmount = some 0
    ∧ (mapFind mbC8after.assets "USDC").map AssetInfo.mintedAmount = some 0
    ∧ acbC8.isPaused = false
    ∧ AvalancheCeloBridge.emergencyWithdraw acbC8 "USDC"
        = .error (.bridgeError "Bridge must be paused for emergency withdrawal") := by
  refine ⟨rfl, ?_, rfl, rfl, rfl, ?_⟩ <;> decide

/-- Claim C3: the spec requires that no operation ever transitions a
transaction out of a terminal state.  In `AvalancheBridge` the
lock/unlock/mint/burn methods key the new PENDING record by
`keccak256(tx.data)`, a deterministic function of the recipient and
amount, and store it with `Map.set`: locking 100 USDC, processing the
transaction to LOCKED, then locking 100 USDC again recomputes the same
hash and overwrites the LOCKED record back to PENDING. -/
theorem c3_terminal_state_overwritten_by_lock :
    avC3processed.map (fun av => avStatusAt av hashC3)
      = .ok (some TransactionStatus.LOCKED)
    ∧ avC3lock2.map (fun av => avStatusAt av hashC3)
      = .ok (some TransactionStatus.PENDING) := by
  constructor <;> decide

/-- Claim C10: for a registered symbol, `emergencyWithdraw` succeeds,
zeroes the locked and minted amounts of that asset (so its total supply is
zero), and leaves every other asset, the transaction map, the validator
set, the paused flag and the bridge id unchanged. -/
theorem c10_emergencyWithdraw_frame (b : MasterBridge) (symbol : String) (now : Nat)
    (a : AssetInfo) (ha : mapFind b.assets symbol = some a) :
    ∃ b2, MasterBridge.emergencyWithdraw b symbol now = .ok b2
      ∧ mapFind b2.assets symbol
          = some { a with lockedAmount := 0, mintedAmount := 0, lastUpdate := now }
      ∧ (∀ sym2, sym2 ≠ symbol → mapFind b2.assets sym2 = mapFind b.assets sym2)
      ∧ b2.transactions = b.transactions
      ∧ b2.validators = b.validators
      ∧ b2.paused = b.paused
      ∧ b2.bridgeId = b.bridgeId := by
  unfold MasterBridge.emergencyWithdraw
  rw [ha]
  refine ⟨_, rfl, ?_, ?_, rfl, rfl, rfl, rfl⟩
  · exact mapFind_mapSet_self b.assets symbol _
  · intro sym2 h2
    exact mapFind_mapSet_ne b.assets symbol sym2 _ h2

/-- Witness for C10 at the concrete state `mbC10`. -/
theorem c10_emergencyWithdraw_frame_witness :
    mapFind mbC10.assets "USDC" = some assetC10
    ∧ (∃ b2, MasterBridge.emergencyWithdraw mbC10 "USDC" 9 = .ok b2
        ∧ mapFind b2.assets "USDC"
            = some { assetC10 with lockedAmount := 0, mintedAmount := 0, lastUpdate := 9 }
        ∧ (∀ sym2, sym2 ≠ "USDC" → mapFind b2.assets sym2 = mapFind mbC10.assets sym2)
        ∧ b2.transactions = mbC10.transactions
        ∧ b2.validators = mbC10.validators
        ∧ b2.paused = mbC10.paused
        ∧ b2.bridgeId = mbC10.bridgeId) :=
  ⟨by decide, c10_emergencyWithdraw_frame mbC10 "USDC" 9 assetC10 (by decide)⟩

/-- Claim C4 as stated is false on the code: the claim says the
operations fail with AssetError, but on a bridge with no registered
assets every one of lock/unlock/mint/burn fails with a BridgeError. -/
theorem c4_error_kind_counterexample :
    MasterBridge.unlockTokens mbC4empty "DOGE" 5 0
      = .error (.bridgeError "Asset DOGE not registered")
    ∧ isAssetErr (MasterBridge.unlockTokens mbC4empty "DOGE" 5 0) = false
    ∧ isAssetErr (MasterBridge.lockTokens mbC4empty "DOGE" 5 0) = false
    ∧ isAssetErr (MasterBridge.mintTokens mbC4empty "DOGE" 5 0) = false
    ∧ isAssetErr (MasterBridge.burnTokens mbC4empty "DOGE" 5 0) = false := by
  refine ⟨?_, ?_, ?_, ?_, ?_⟩ <;> decide

/-- Claim C4 (amended: the failures are BridgeErrors, not AssetErrors):
on an unpaused bridge, lock/unlock/mint/burn fail with a BridgeError
when the asset is unknown; `unlockTokens` (resp. `burnTokens`) fails
with a BridgeError when the amount exceeds `lockedAmount`
(resp. `mintedAmount`) — a failure returns no new state, so both
balances are unchanged — and otherwise succeeds, decreasing the
respective balance by exactly the amount. -/
theorem c4_insufficient_balance_amended (b : MasterBridge) (symbol : String)
    (amount : Int) (now : Nat) (hp : b.paused = false) :
    (mapFind b.assets symbol = none →
      MasterBridge.lockTokens b symbol amount now
          = .error (.bridgeError s!"Asset {symbol} not registered")
      ∧ MasterBridge.unlockTokens b symbol amount now
          = .error (.bridgeError s!"Asset {symbol} not registered")
      ∧ MasterBridge.mintTokens b symbol amount now
          = .error (.bridgeError s!"Asset {symbol} not registered")
      ∧ MasterBridge.burnTokens b symbol amount now
          = .error (.bridgeError s!"Asset {symbol} not registered"))
    ∧ (∀ a, mapFind b.assets symbol = some a →
      (a.lockedAmount < amount →
        MasterBridge.unlockTokens b symbol amount now
            = .error (.bridgeError s!"Insufficient locked amount for {symbol}"))
      ∧ (amount ≤ a.lockedAmount →
        (MasterBridge.unlockTokens b symbol amount now).isOk = true
        ∧ assetAfter (MasterBridge.unlockTokens b symbol amount now) symbol
            = some { a with lockedAmount := a.lockedAmount - amount, lastUpdate := now })
      ∧ (a.mintedAmount < amount →
        MasterBridge.burnTokens b symbol amount now
            = .error (.bridgeError s!"Insufficient minted amount for {symbol}"))
      ∧ (amount ≤ a.mintedAmount →
        (MasterBridge.burnTokens b symbol amount now).isOk = true
        ∧ assetAfter (MasterBridge.burnTokens b symbol amount now) symbol
            = some { a with mintedAmount := a.mintedAmount - amount, lastUpdate := now })) := by
  constructor
  · intro hnone
    refine ⟨?_, ?_, ?_, ?_⟩ <;>
      simp [MasterBridge.lockTokens, MasterBridge.unlockTokens,
            MasterBridge.mintTokens, MasterBridge.burnTokens, hp, hnone]
  · intro a ha
    refine ⟨?_, ?_, ?_, ?_⟩
    · intro hlt
      simp [MasterBridge.unlockTokens, hp, ha, hlt]
    · intro hle
      have hnl : ¬(a.lockedAmount < amount) := not_lt.mpr hle
      constructor
      · simp [MasterBridge.unlockTokens, hp, ha, hnl, Except.isOk, Except.toBool]
      · simp [MasterBridge.unlockTokens, hp, ha, hnl, assetAfter,
              mapFind_mapSet_self]
    · intro hlt
      simp [MasterBridge.burnTokens, hp, ha, hlt]
    · intro hle
      have hnm : ¬(a.mintedAmount < amount) := not_lt.mpr hle
      constructor
      · simp [MasterBridge.burnTokens, hp, ha, hnm, Except.isOk, Except.toBool]
      · simp [MasterBridge.burnTokens, hp, ha, hnm, assetAfter,
              mapFind_mapSet_self]

/-- Witness for the amended C4 running the spec scenario: after
registering USDC, locking 100 and 50 and unlocking 120 the locked
balance is 30, and on that state unlocking 31 fails as insufficient
while unlocking 30 would succeed. -/
theorem c4_insufficient_balance_witness :
    (mbC4run = .ok mbC4after
      ∧ (mapFind mbC4after.assets "USDC").map AssetInfo.lockedAmount = some 30
      ∧ mbC4after.paused = false)
    ∧ ((mapFind mbC4after.assets "USDC" = none →
        MasterBridge.lockTokens mbC4after "USDC" 31 5
            = .error (.bridgeError "Asset USDC not registered")
        ∧ MasterBridge.unlockTokens mbC4after "USDC" 31 5
            = .error (.bridgeError "Asset USDC not registered")
        ∧ MasterBridge.mintTokens mbC4after "USDC" 31 5
            = .error (.bridgeError "Asset USDC not registered")
        ∧ MasterBridge.burnTokens mbC4after "USDC" 31 5
            = .error (.bridgeError "Asset USDC not registered"))
      ∧ (∀ a, mapFind mbC4after.assets "USDC" = some a →
        (a.lockedAmount < 31 →
          MasterBridge.unlockTokens mbC4after "USDC" 31 5
              = .error (.bridgeError "Insufficient locked amount for USDC"))
        ∧ (31 ≤ a.lockedAmount →
          (MasterBridge.unlockTokens mbC4after "USDC" 31 5).isOk = true
          ∧ assetAfter (MasterBridge.unlockTokens mbC4after "USDC" 31 5) "USDC"
              = some { a with lockedAmount := a.lockedAmount - 31, lastUpdate := 5 })
        ∧ (a.mintedAmount < 31 →
          MasterBridge.burnTokens mbC4after "USDC" 31 5
              = .error (.bridgeError "Insufficient minted amount for USDC"))
        ∧ (31 ≤ a.mintedAmount →
          (MasterBridge.burnTokens mbC4after "USDC" 31 5).isOk = true
          ∧ assetAfter (MasterBridge.burnTokens mbC4after "USDC" 31 5) "USDC"
              = some { a with mintedAmount := a.mintedAmount - 31, lastUpdate := 5 }))) :=
  ⟨by decide, c4_insufficient_balance_amended mbC4after "USDC" 31 5 (by decide)⟩

/-- Claim C6: in the asset registry, `registerAsset` fails with an
AssetError whenever the symbol or the token address is already
registered, and after a successful `unregisterAsset` a re-registration
with the same symbol and token address succeeds. -/
theorem c6_registration_uniqueness (am : AssetManager) (symbol tokenAddress : String)
    (now now2 : Nat) :
    ((mapHas am.assets symbol = true ∨ mapHas am.tokenAddresses tokenAddress = true) →
      ∃ msg, AssetManager.registerAsset am symbol tokenAddress now
          = .error (.assetError msg))
    ∧ (∀ a, mapFind am.assets symbol = some a →
      ∃ am2, AssetManager.unregisterAsset am symbol = .ok am2
        ∧ (AssetManager.registerAsset am2 symbol a.tokenAddress now2).isOk = true) := by
  constructor
  · intro h
    by_cases h1 : mapHas am.assets symbol
    · refine ⟨s!"Asset {symbol} already registered", ?_⟩
      simp [AssetManager.registerAsset, h1]
    · have h2 : mapHas am.tokenAddresses tokenAddress = true := by
        rcases h with h | h
        · exact absurd h h1
        · exact h
      refine ⟨s!"Token address {tokenAddress} already registered", ?_⟩
      simp [AssetManager.registerAsset, h1, h2]
  · intro a ha
    have h1 : AssetManager.unregisterAsset am symbol
        = .ok { assets := mapErase am.assets symbol,
                tokenAddresses := mapErase am.tokenAddresses a.tokenAddress } := by
      simp [AssetManager.unregisterAsset, ha]
    have h2 : mapHas (mapErase am.assets symbol) symbol = false := by
      simp [mapHas, mapFind_mapErase_self]
    have h3 : mapHas (mapErase am.tokenAddresses a.tokenAddress) a.tokenAddress = false := by
      simp [mapHas, mapFind_mapErase_self]
    refine ⟨_, h1, ?_⟩
    simp [AssetManager.registerAsset, h2, h3, Except.isOk, Except.toBool]

/-- Witness for C6 at the concrete registry `amC6`: registering the
taken symbol or the taken address fails, and unregister-then-reregister
succeeds. -/
theorem c6_registration_uniqueness_witness :
    ((mapHas amC6.assets "USDC" = true ∨ mapHas amC6.tokenAddresses "0xZZZ" = true) →
      ∃ msg, AssetManager.registerAsset amC6 "USDC" "0xZZZ" 3
          = .error (.assetError msg))
    ∧ (∀ a, mapFind amC6.assets "USDC" = some a →
      ∃ am2, AssetManager.unregisterAsset amC6 "USDC" = .ok am2
        ∧ (AssetManager.registerAsset am2 "USDC" a.tokenAddress 4).isOk = true) :=
  c6_registration_uniqueness amC6 "USDC" "0xZZZ" 3 4

/-- Claim C7: with the configured window W and maximum N, once an
recorded history of an address holds N timestamps that all fall inside W as
of `now`, the rate-limit check fails and `validateTransaction` rejects
the next transfer with a SecurityError; once W has elapsed since each
of those timestamps, the rate-limit check passes again. -/
theorem c7_rate_limit_window (sm : SecurityManager) (address toAddr : String)
    (amount gasPrice : Int) (now : Int) (hist : List Int)
    (hhist : (mapFind sm.transactionHistory (lower address)).getD [] = hist)
    (hlen : hist.length = sm.config.rateLimitMaxTransactions)
    (hwin : ∀ t ∈ hist, now - t < sm.config.rateLimitTimeWindow)
    (hem : sm.emergencyMode = false)
    (hbl : sm.config.blacklistEnabled = false)
    (hwl : sm.config.whitelistEnabled = false) :
    (SecurityManager.checkRateLimit sm address now).1 = false
    ∧ SecurityManager.validateTransaction sm address toAddr amount gasPrice now
        = .error (.securityError "Rate limit exceeded")
    ∧ (∀ now2, 0 < sm.config.rateLimitMaxTransactions →
        (∀ t ∈ hist, sm.config.rateLimitTimeWindow ≤ now2 - t) →
        (SecurityManager.checkRateLimit sm address now2).1 = true) := by
  have hfilter : hist.filter
      (fun timestamp => decide (now - timestamp < sm.config.rateLimitTimeWindow)) = hist :=
    List.filter_eq_self.mpr (fun t ht => decide_eq_true (hwin t ht))
  have h1 : (SecurityManager.checkRateLimit sm address now).1 = false := by
    simp [SecurityManager.checkRateLimit, hhist, hfilter, hlen]
  refine ⟨h1, ?_, ?_⟩
  · simp [SecurityManager.validateTransaction, hem, hbl, hwl, h1]
  · intro now2 hpos hold
    have hfilter2 : hist.filter
        (fun timestamp => decide (now2 - timestamp < sm.config.rateLimitTimeWindow)) = [] := by
      rw [List.filter_eq_nil_iff]
      intro t ht
      simp [not_lt.mpr (hold t ht)]
    simp [SecurityManager.checkRateLimit, hhist, hfilter2, hpos]

/-- Witness for C7 at `smC7`: 2 transfers recorded at times 10 and 20
inside the 1000 ms window, a third attempt at time 30 is rejected, and
at time 2000 the check passes again. -/
theorem c7_rate_limit_window_witness :
    ((mapFind smC7.transactionHistory (lower "alice")).getD [] = [10, 20]
      ∧ ([10, 20] : List Int).length = smC7.config.rateLimitMaxTransactions
      ∧ (∀ t ∈ ([10, 20] : List Int), 30 - t < smC7.config.rateLimitTimeWindow)
      ∧ smC7.emergencyMode = false)
    ∧ ((SecurityManager.checkRateLimit smC7 "alice" 30).1 = false
      ∧ SecurityManager.validateTransaction smC7 "alice" "bob" 1 1 30
          = .error (.securityError "Rate limit exceeded")
      ∧ (∀ now2, 0 < smC7.config.rateLimitMaxTransactions →
          (∀ t ∈ ([10, 20] : List Int), smC7.config.rateLimitTimeWindow ≤ now2 - t) →
          (SecurityManager.checkRateLimit smC7 "alice" now2).1 = true)) :=
  ⟨⟨by decide, by decide, by decide, by decide⟩,
   c7_rate_limit_window smC7 "alice" "bob" 1 1 30 [10, 20]
     (by decide) (by decide) (by decide) (by decide) (by decide) (by decide)⟩

/-- Invariant step: when an operation succeeds, the target asset is
still present, its locked + minted total moves by exactly the
signed delta of the operation, and both balances stay non-negative. -/
theorem applyOp_ok_invariant (b : MasterBridge) (symbol : String) (op : AssetOp) (t : Nat)
    (a : AssetInfo) (ha : mapFind b.assets symbol = some a)
    (hl : 0 ≤ a.lockedAmount) (hm : 0 ≤ a.mintedAmount) (hamt : 0 ≤ op.amount)
    (b2 : MasterBridge) (hok : applyOp b symbol op t = .ok b2) :
    ∃ a2, mapFind b2.assets symbol = some a2
      ∧ a2.lockedAmount + a2.mintedAmount = a.lockedAmount + a.mintedAmount + op.delta
      ∧ 0 ≤ a2.lockedAmount ∧ 0 ≤ a2.mintedAmount := by
  cases op with
  | lock amt =>
    simp only [AssetOp.amount] at hamt
    by_cases hp : b.paused
    · simp [applyOp, MasterBridge.lockTokens, hp] at hok
    · simp [applyOp, MasterBridge.lockTokens, hp, ha] at hok
      subst hok
      refine ⟨_, mapFind_mapSet_self b.assets symbol _, ?_, ?_, ?_⟩
      · simp [AssetOp.delta]
        ring
      · simp
        omega
      · simpa using hm
  | unlock amt =>
    simp only [AssetOp.amount] at hamt
    by_cases hp : b.paused
    · simp [applyOp, MasterBridge.unlockTokens, hp] at hok
    · by_cases hlt : a.lockedAmount < amt
      · simp [applyOp, MasterBridge.unlockTokens, hp, ha, hlt] at hok
      · simp [applyOp, MasterBridge.unlockTokens, hp, ha, hlt] at hok
        subst hok
        refine ⟨_, mapFind_mapSet_self b.assets symbol _, ?_, ?_, ?_⟩
        · simp [AssetOp.delta]
          ring
        · simp
          omega
        · simpa using hm
  | mint amt =>
    simp only [AssetOp.amount] at hamt
    by_cases hp : b.paused
    · simp [applyOp, MasterBridge.mintTokens, hp] at hok
    · simp [applyOp, MasterBridge.mintTokens, hp, ha] at hok
      subst hok
      refine ⟨_, mapFind_mapSet_self b.assets symbol _, ?_, ?_, ?_⟩
      · simp [AssetOp.delta]
        ring
      · simpa using hl
      · simp
        omega
  | burn amt =>
    simp only [AssetOp.amount] at hamt
    by_cases hp : b.paused
    · simp [applyOp, MasterBridge.burnTokens, hp] at hok
    · by_cases hlt : a.mintedAmount < amt
      · simp [applyOp, MasterBridge.burnTokens, hp, ha, hlt] at hok
      · simp [applyOp, MasterBridge.burnTokens, hp, ha, hlt] at hok
        subst hok
        refine ⟨_, mapFind_mapSet_self b.assets symbol _, ?_, ?_, ?_⟩
        · simp [AssetOp.delta]
          ring
        · simpa using hl
        · simp
          omega

/-- Conservation invariant over a whole operation sequence, for any
non-negative starting balances. -/
theorem runOps_conservation (symbol : String) (ops : List (AssetOp × Nat)) :
    ∀ (b : MasterBridge) (a : AssetInfo),
      mapFind b.assets symbol = some a →
      0 ≤ a.lockedAmount → 0 ≤ a.mintedAmount →
      (∀ p ∈ ops, 0 ≤ p.1.amount) →
      ∃ a2, mapFind (runOps b symbol ops).1.assets symbol = some a2
        ∧ a2.lockedAmount + a2.mintedAmount
            = a.lockedAmount + a.mintedAmount + (runOps b symbol ops).2
        ∧ 0 ≤ a2.lockedAmount ∧ 0 ≤ a2.mintedAmount := by
  induction ops with
  | nil =>
    intro b a ha hl hm _
    exact ⟨a, by simpa [runOps] using ha, by simp [runOps], hl, hm⟩
  | cons p rest ih =>
    intro b a ha hl hm hops
    obtain ⟨op, t⟩ := p
    have hamt : 0 ≤ op.amount := hops (op, t) (List.mem_cons_self _ _)
    have hrest : ∀ q ∈ rest, 0 ≤ q.1.amount := fun q hq => hops q (List.mem_cons_of_mem _ hq)
    cases happly : applyOp b symbol op t with
    | error e =>
      have hrun : runOps b symbol ((op, t) :: rest) = runOps b symbol rest := by
        simp [runOps, happly]
      rw [hrun]
      exact ih b a ha hl hm hrest
    | ok b2 =>
      obtain ⟨a2, ha2, hsum2, hl2, hm2⟩ :=
        applyOp_ok_invariant b symbol op t a ha hl hm hamt b2 happly
      obtain ⟨a3, ha3, hsum3, hl3, hm3⟩ := ih b2 a2 ha2 hl2 hm2 hrest
      have hrun : runOps b symbol ((op, t) :: rest)
          = ((runOps b2 symbol rest).1, op.delta + (runOps b2 symbol rest).2) := by
        simp [runOps, happly]
      rw [hrun]
      exact ⟨a3, ha3, by dsimp only; omega, hl3, hm3⟩

/-- Claim C1: starting from a freshly registered asset (both balances
zero), after any sequence of lock/unlock/mint/burn operations with
non-negative amounts, the `lockedAmount + mintedAmount` of the asset — the
value `getTotalSupply` computes — equals the sum of the successful lock
and mint amounts minus the sum of the successful unlock and burn
amounts, and is never negative. -/
theorem c1_conservation_lock_mint_burn (b : MasterBridge) (symbol : String)
    (ops : List (AssetOp × Nat)) (a : AssetInfo)
    (ha : mapFind b.assets symbol = some a)
    (hl0 : a.lockedAmount = 0) (hm0 : a.mintedAmount = 0)
    (hops : ∀ p ∈ ops, 0 ≤ p.1.amount) :
    ∃ a2, mapFind (runOps b symbol ops).1.assets symbol = some a2
      ∧ a2.lockedAmount + a2.mintedAmount = (runOps b symbol ops).2
      ∧ 0 ≤ a2.lockedAmount + a2.mintedAmount
      ∧ 0 ≤ a2.lockedAmount ∧ 0 ≤ a2.mintedAmount := by
  obtain ⟨a2, ha2, hsum, hl2, hm2⟩ :=
    runOps_conservation symbol ops b a ha (le_of_eq hl0.symm) (le_of_eq hm0.symm) hops
  exact ⟨a2, ha2, by omega, by omega, hl2, hm2⟩

/-- Witness for C1: the trace lock 100, lock 50, unlock 120,
unlock 31 (fails: only 30 locked), mint 5, burn 2 yields net sum 33 and
a final locked + minted of 33. -/
theorem c1_conservation_witness :
    (mapFind mbC1.assets "USDC" = some assetC1
      ∧ assetC1.lockedAmount = 0 ∧ assetC1.mintedAmount = 0
      ∧ (∀ p ∈ opsC1, 0 ≤ p.1.amount)
      ∧ (runOps mbC1 "USDC" opsC1).2 = 33)
    ∧ (∃ a2, mapFind (runOps mbC1 "USDC" opsC1).1.assets "USDC" = some a2
        ∧ a2.lockedAmount + a2.mintedAmount = (runOps mbC1 "USDC" opsC1).2
        ∧ 0 ≤ a2.lockedAmount + a2.mintedAmount
        ∧ 0 ≤ a2.lockedAmount ∧ 0 ≤ a2.mintedAmount) :=
  ⟨⟨by decide, by decide, by decide, by decide, by decide⟩,
   c1_conservation_lock_mint_burn mbC1 "USDC" opsC1 assetC1
     (by decide) (by decide) (by decide) (by decide)⟩

/-- Inserting with `insertUniq` adds exactly the element to the set view. -/
theorem insertUniq_toFinset (acc : List String) (x : String) :
    (insertUniq acc x).toFinset = insert x acc.toFinset := by
  unfold insertUniq
  by_cases h : x ∈ acc
  · rw [if_pos h]
    exact (Finset.insert_eq_self.mpr (List.mem_toFinset.mpr h)).symm
  · rw [if_neg h]
    ext y
    simp [or_comm]

/-- Folding `insertUniq` accumulates the union of the two sets. -/
theorem foldl_insertUniq_toFinset (ids : List String) :
    ∀ acc, (List.foldl insertUniq acc ids).toFinset = acc.toFinset ∪ ids.toFinset := by
  induction ids with
  | nil => intro acc; simp
  | cons x rest ih =>
    intro acc
    rw [List.foldl_cons, ih (insertUniq acc x), insertUniq_toFinset]
    ext y
    simp

/-- Folding `insertUniq` preserves distinctness. -/
theorem foldl_insertUniq_nodup (ids : List String) :
    ∀ acc, acc.Nodup → (List.foldl insertUniq acc ids).Nodup := by
  induction ids with
  | nil => intro acc h; exact h
  | cons x rest ih =>
    intro acc h
    rw [List.foldl_cons]
    apply ih
    unfold insertUniq
    by_cases hx : x ∈ acc
    · rw [if_pos hx]
      exact h
    · rw [if_neg hx]
      exact List.Nodup.append h (List.nodup_singleton x)
        (by simpa [List.disjoint_singleton] using hx)

/-- The size of the `uniqueSigners` set equals the number of distinct
recovered identities. -/
theorem foldl_insertUniq_length (ids : List String) :
    (List.foldl insertUniq [] ids).length = ids.dedup.length := by
  have h1 : (List.foldl insertUniq [] ids).toFinset = ids.toFinset := by
    rw [foldl_insertUniq_toFinset]
    simp
  have h2 : (List.foldl insertUniq [] ids).Nodup :=
    foldl_insertUniq_nodup ids [] (by simp)
  calc (List.foldl insertUniq [] ids).length
      = (List.foldl insertUniq [] ids).toFinset.card :=
        (List.toFinset_card_of_nodup h2).symm
    _ = ids.toFinset.card := by rw [h1]
    _ = ids.dedup.length := List.card_toFinset ids

/-- The signature-walking loop succeeds exactly when every signature in
the list is unexpired and authorized, and then returns the accumulated
distinct-signer set. -/
theorem collectSigners_ok_iff (sm : SecurityManager) (recover : String → String → String)
    (message : String) (now : Int) (sigs : List SignatureData) :
    ∀ acc out,
      SecurityManager.collectSigners sm recover message now sigs acc = .ok out ↔
        ((∀ s ∈ sigs, now - s.timestamp ≤ 3600000
            ∧ mapHas sm.signers (lower (recover message s.signature)) = true)
          ∧ out = List.foldl insertUniq acc
              (sigs.map (fun s => lower (recover message s.signature)))) := by
  induction sigs with
  | nil =>
    intro acc out
    simp [SecurityManager.collectSigners]
    exact eq_comm
  | cons s rest ih =>
    intro acc out
    by_cases hexp : now - s.timestamp > 3600000
    · constructor
      · intro hfalse
        simp [SecurityManager.collectSigners, hexp] at hfalse
      · rintro ⟨hall, -⟩
        exact absurd (hall s (List.mem_cons_self s rest)).1 (not_le.mpr hexp)
    · by_cases hauth : mapHas sm.signers (lower (recover message s.signature))
      · have hle : now - s.timestamp ≤ 3600000 := not_lt.mp hexp
        simp only [SecurityManager.collectSigners, if_neg hexp, hauth, Bool.not_true,
          Bool.false_eq_true, if_false, List.map_cons, List.foldl_cons,
          List.forall_mem_cons]
        rw [ih (insertUniq acc (lower (recover message s.signature))) out]
        simp [hle, hauth]
      · have hauth2 : mapHas sm.signers (lower (recover message s.signature)) = false :=
          Bool.not_eq_true _ ▸ eq_false_of_ne_true hauth
        simp [SecurityManager.collectSigners, if_neg hexp, hauth2]

/-- Claim C5 as stated is false on the code in both directions: with
threshold 1 and authorized signer `a`, a list holding one valid
signature and one expired signature has one distinct unexpired
authorized identity — the claim requires `true` — but the code throws
`SecurityError` instead of skipping the expired entry; and a single
signature aged exactly one hour is counted by the code (its check is
strict `>`), so the code returns `true` although the
"less than 1 hour old" count is 0. -/
theorem c5_validate_signatures_counterexample :
    smC5.config.multiSigThreshold = 1
    ∧ claimValidSignerCount smC5 recoverId "h" sigsC5a 0 = 1
    ∧ SecurityManager.validateSignatures smC5 recoverId "h" sigsC5a 0
        = .error (.securityError "Signature expired")
    ∧ claimValidSignerCount smC5 recoverId "h" sigsC5b 0 = 0
    ∧ SecurityManager.validateSignatures smC5 recoverId "h" sigsC5b 0 = .ok true := by
  refine ⟨rfl, ?_, ?_, ?_, ?_⟩ <;> decide

/-- Claim C5 (amended): `validateSignatures` returns `true` iff the list
length reaches the threshold, every signature in the list is unexpired
(at most one hour old, the boundary included) and from an authorized
signer, and the number of distinct recovered identities reaches the
threshold; an expired or unauthorized signature anywhere in the list
raises a `SecurityError` instead of being skipped, and duplicate
submissions of one identity count once. -/
theorem c5_validate_signatures_amended (sm : SecurityManager)
    (recover : String → String → String) (txHash : String)
    (signatures : List SignatureData) (now : Int) :
    SecurityManager.validateSignatures sm recover txHash signatures now = .ok true ↔
      (sm.config.multiSigThreshold ≤ signatures.length
        ∧ (∀ s ∈ signatures, now - s.timestamp ≤ 3600000
            ∧ mapHas sm.signers (lower (recover (keccak256 txHash) s.signature)) = true)
        ∧ sm.config.multiSigThreshold ≤
            ((signatures.map (fun s =>
              lower (recover (keccak256 txHash) s.signature))).dedup).length) := by
  unfold SecurityManager.validateSignatures
  by_cases hlen : signatures.length < sm.config.multiSigThreshold
  · rw [if_pos hlen]
    have h2 : ¬(sm.config.multiSigThreshold ≤ signatures.length) := not_le.mpr hlen
    simp [h2]
  · rw [if_neg hlen]
    have hlen2 : sm.config.multiSigThreshold ≤ signatures.length := not_lt.mp hlen
    cases hcol : SecurityManager.collectSigners sm recover (keccak256 txHash) now
        signatures [] with
    | error e =>
      simp only [hcol]
      constructor
      · intro h
        exact absurd h (by simp)
      · rintro ⟨h1, h2, h3⟩
        have hok : SecurityManager.collectSigners sm recover (keccak256 txHash) now
            signatures []
            = .ok (List.foldl insertUniq []
                (signatures.map (fun s => lower (recover (keccak256 txHash) s.signature)))) :=
          (collectSigners_ok_iff sm recover (keccak256 txHash) now signatures [] _).mpr
            ⟨h2, rfl⟩
        rw [hcol] at hok
        exact Except.noConfusion hok
    | ok u =>
      obtain ⟨hvalid, hout⟩ :=
        (collectSigners_ok_iff sm recover (keccak256 txHash) now signatures [] u).mp hcol
      subst hout
      simp only [hcol, Except.ok.injEq, decide_eq_true_eq, foldl_insertUniq_length]
      constructor
      · intro h
        exact ⟨hlen2, hvalid, h⟩
      · rintro ⟨h1, h2, h3⟩
        exact h3

/-- The JavaScript `reduce` with strict `>` replacement returns either
the initial accumulator (when nothing strictly beats it) or the first
list entry that strictly beats the accumulator and everything before
it, and nothing after it beats the result. -/
theorem reduceBest_first_max (l : List (BridgeProtocol × ℚ)) :
    ∀ best, (CrossChainOptimizer.reduceBest best l = best ∧ ∀ q ∈ l, q.2 ≤ best.2)
      ∨ (∃ pre c post, l = pre ++ c :: post
          ∧ CrossChainOptimizer.reduceBest best l = c ∧ best.2 < c.2
          ∧ (∀ x ∈ pre, x.2 < c.2) ∧ (∀ x ∈ post, x.2 ≤ c.2)) := by
  induction l with
  | nil =>
    intro best
    left
    exact ⟨rfl, by simp⟩
  | cons current rest ih =>
    intro best
    by_cases h : best.2 < current.2
    · rcases ih current with ⟨heq, hall⟩ | ⟨pre, c, post, hdec, heq, hlt, hpre, hpost⟩
      · right
        refine ⟨[], current, rest, by simp, ?_, h, by simp, hall⟩
        simp [CrossChainOptimizer.reduceBest, h, heq]
      · right
        refine ⟨current :: pre, c, post, by simp [hdec], ?_, lt_trans h hlt, ?_, hpost⟩
        · simp [CrossChainOptimizer.reduceBest, h, heq]
        · intro x hx
          rcases List.mem_cons.mp hx with rfl | hx2
          · exact hlt
          · exact hpre x hx2
    · rcases ih best with ⟨heq, hall⟩ | ⟨pre, c, post, hdec, heq, hlt, hpre, hpost⟩
      · left
        constructor
        · simp [CrossChainOptimizer.reduceBest, h, heq]
        · intro q hq
          rcases List.mem_cons.mp hq with rfl | hq2
          · exact le_of_not_lt h
          · exact hall q hq2
      · right
        refine ⟨current :: pre, c, post, by simp [hdec], ?_, hlt, ?_, hpost⟩
        · simp [CrossChainOptimizer.reduceBest, h, heq]
        · intro x hx
          rcases List.mem_cons.mp hx with rfl | hx2
          · exact lt_of_le_of_lt (le_of_not_lt h) hlt
          · exact hpre x hx2

/-- Mapping a protocol to its scored pair and back is the identity. -/
theorem map_fst_map_score (l : List BridgeProtocol) :
    (l.map (fun protocol => (protocol, CrossChainOptimizer.protocolScore protocol))).map
      Prod.fst = l := by
  induction l with
  | nil => rfl
  | cons x xs ihx => simpa using ihx

/-- Claim C9: when `selectOptimalProtocol` returns a protocol, that
protocol lies in the filtered candidate list, its score — computed as
`0.4·(1 − normalizedFee) + 0.3·(1 − normalizedTime) +
0.3·(securityLevel / maxSecurityLevel)` with the fee/time/security
weights in that order — is maximal among the candidates, and every
candidate listed before it scores strictly less, so ties go to the
first-seen protocol. -/
theorem c9_select_optimal_protocol (opt : CrossChainOptimizer) (fromChain toChain : Int)
    (tokenAddress : String) (securityPreference : SecurityLevel)
    (route : BridgeRoute) (p : BridgeProtocol)
    (hroute : mapFind opt.bridgeRoutes s!"{fromChain}-{toChain}" = some route)
    (hsel : CrossChainOptimizer.selectOptimalProtocol opt fromChain toChain
        tokenAddress securityPreference = .ok p) :
    p ∈ CrossChainOptimizer.availableProtocols route tokenAddress securityPreference
    ∧ (∀ q ∈ CrossChainOptimizer.availableProtocols route tokenAddress securityPreference,
        CrossChainOptimizer.protocolScore q ≤ CrossChainOptimizer.protocolScore p)
    ∧ (∃ pre post,
        CrossChainOptimizer.availableProtocols route tokenAddress securityPreference
          = pre ++ p :: post
        ∧ ∀ q ∈ pre, CrossChainOptimizer.protocolScore q < CrossChainOptimizer.protocolScore p)
    ∧ CrossChainOptimizer.protocolScore p
        = CrossChainOptimizer.FEE_WEIGHT
            * (1 - (CrossChainOptimizer.estimateProtocolFee p : ℚ) / ((10 : ℚ) ^ 18))
          + CrossChainOptimizer.TIME_WEIGHT * (1 - p.estimatedTime / 600)
          + CrossChainOptimizer.SECURITY_WEIGHT * (p.securityLevel.toNum / 3)
    ∧ CrossChainOptimizer.FEE_WEIGHT = 4 / 10
    ∧ CrossChainOptimizer.TIME_WEIGHT = 3 / 10
    ∧ CrossChainOptimizer.SECURITY_WEIGHT = 3 / 10 := by
  unfold CrossChainOptimizer.selectOptimalProtocol at hsel
  simp only [hroute] at hsel
  cases havail : CrossChainOptimizer.availableProtocols route tokenAddress
      securityPreference with
  | nil =>
    rw [havail] at hsel
    exact Except.noConfusion hsel
  | cons p0 prest =>
    rw [havail] at hsel
    simp only [Except.ok.injEq] at hsel
    have hmapped : ∀ x ∈ prest.map
        (fun protocol => (protocol, CrossChainOptimizer.protocolScore protocol)),
        x.2 = CrossChainOptimizer.protocolScore x.1 := by
      intro x hx
      obtain ⟨q, hq, hfx⟩ := List.mem_map.mp hx
      rw [← hfx]
    rcases reduceBest_first_max
        (prest.map (fun protocol => (protocol, CrossChainOptimizer.protocolScore protocol)))
        (p0, CrossChainOptimizer.protocolScore p0) with
      ⟨heq, hall⟩ | ⟨preP, c, postP, hdec, heq, hlt, hpre, hpost⟩
    · rw [heq] at hsel
      have hp0 : p = p0 := hsel.symm
      subst hp0
      refine ⟨List.mem_cons_self _ _, ?_, ?_, rfl, rfl, rfl, rfl⟩
      · intro q hq
        rcases List.mem_cons.mp hq with rfl | hq2
        · exact le_refl _
        · have := hall (q, CrossChainOptimizer.protocolScore q)
            (List.mem_map.mpr ⟨q, hq2, rfl⟩)
          simpa using this
      · exact ⟨[], prest, rfl, by simp⟩
    · rw [heq] at hsel
      have hc2 : c.2 = CrossChainOptimizer.protocolScore c.1 := by
        apply hmapped
        rw [hdec]
        exact List.mem_append_right _ (List.mem_cons_self _ _)
      have hfst : prest = preP.map Prod.fst ++ c.1 :: postP.map Prod.fst := by
        have h0 := map_fst_map_score prest
        rw [hdec] at h0
        simpa using h0.symm
      have hpreP : ∀ x ∈ preP, x.2 = CrossChainOptimizer.protocolScore x.1 := by
        intro x hx
        apply hmapped
        rw [hdec]
        exact List.mem_append_left _ hx
      have hpostP : ∀ x ∈ postP, x.2 = CrossChainOptimizer.protocolScore x.1 := by
        intro x hx
        apply hmapped
        rw [hdec]
        exact List.mem_append_right _ (List.mem_cons_of_mem _ hx)
      subst hsel
      have hscorep : CrossChainOptimizer.protocolScore c.1 = c.2 := hc2.symm
      have hdecomp : p0 :: prest = (p0 :: preP.map Prod.fst) ++ c.1 :: postP.map Prod.fst := by
        rw [hfst]
        rfl
      refine ⟨?_, ?_, ?_, rfl, rfl, rfl, rfl⟩
      · rw [hdecomp]
        exact List.mem_append_right _ (List.mem_cons_self _ _)
      · intro q hq
        rw [hdecomp] at hq
        rcases List.mem_append.mp hq with hq1 | hq2
        · rcases List.mem_cons.mp hq1 with rfl | hq3
          · rw [hscorep]
            exact le_of_lt hlt
          · obtain ⟨x, hx, hxq⟩ := List.mem_map.mp hq3
            rw [hscorep, ← hxq, ← hpreP x hx]
            exact le_of_lt (hpre x hx)
        · rcases List.mem_cons.mp hq2 with rfl | hq3
          · exact le_refl _
          · obtain ⟨x, hx, hxq⟩ := List.mem_map.mp hq3
            rw [hscorep, ← hxq, ← hpostP x hx]
            exact hpost x hx
      · refine ⟨p0 :: preP.map Prod.fst, postP.map Prod.fst, hdecomp, ?_⟩
        intro q hq
        rcases List.mem_cons.mp hq with rfl | hq2
        · rw [hscorep]
          exact hlt
        · obtain ⟨x, hx, hxq⟩ := List.mem_map.mp hq2
          rw [hscorep, ← hxq, ← hpreP x hx]
          exact hpre x hx

/-- Witness for C9 at `optC9`: protocols `alpha` and `beta` tie with the
top score and the first-seen `alpha` is selected; `delta` is filtered
out by the security preference and `gamma` scores lower. -/
theorem c9_select_optimal_protocol_witness :
    (mapFind optC9.bridgeRoutes (s!"{(1 : Int)}-{(2 : Int)}") = some routeC9
      ∧ CrossChainOptimizer.selectOptimalProtocol optC9 1 2 "tok" SecurityLevel.MEDIUM
          = .ok protoC9a)
    ∧ (protoC9a ∈ CrossChainOptimizer.availableProtocols routeC9 "tok" SecurityLevel.MEDIUM
      ∧ (∀ q ∈ CrossChainOptimizer.availableProtocols routeC9 "tok" SecurityLevel.MEDIUM,
          CrossChainOptimizer.protocolScore q ≤ CrossChainOptimizer.protocolScore protoC9a)
      ∧ (∃ pre post, CrossChainOptimizer.availableProtocols routeC9 "tok" SecurityLevel.MEDIUM
            = pre ++ protoC9a :: post
          ∧ ∀ q ∈ pre, CrossChainOptimizer.protocolScore q
              < CrossChainOptimizer.protocolScore protoC9a)
      ∧ CrossChainOptimizer.protocolScore protoC9a
          = CrossChainOptimizer.FEE_WEIGHT
              * (1 - (CrossChainOptimizer.estimateProtocolFee protoC9a : ℚ) / ((10 : ℚ) ^ 18))
            + CrossChainOptimizer.TIME_WEIGHT * (1 - protoC9a.estimatedTime / 600)
            + CrossChainOptimizer.SECURITY_WEIGHT * (protoC9a.securityLevel.toNum / 3)
      ∧ CrossChainOptimizer.FEE_WEIGHT = 4 / 10
      ∧ CrossChainOptimizer.TIME_WEIGHT = 3 / 10
      ∧ CrossChainOptimizer.SECURITY_WEIGHT = 3 / 10) := by
  have hkey : mapFind optC9.bridgeRoutes (s!"{(1 : Int)}-{(2 : Int)}") = some routeC9 := by
    decide
  have havail : CrossChainOptimizer.availableProtocols routeC9 "tok" SecurityLevel.MEDIUM
      = [protoC9a, protoC9b, protoC9c] := by decide
  have hab : CrossChainOptimizer.protocolScore protoC9b
      = CrossChainOptimizer.protocolScore protoC9a := rfl
  have hca : CrossChainOptimizer.protocolScore protoC9c
      < CrossChainOptimizer.protocolScore protoC9a := by
    norm_num [CrossChainOptimizer.protocolScore, CrossChainOptimizer.calculateRouteScore,
      CrossChainOptimizer.calculateSecurityScore, CrossChainOptimizer.estimateProtocolFee,
      CrossChainOptimizer.FEE_WEIGHT, CrossChainOptimizer.TIME_WEIGHT,
      CrossChainOptimizer.SECURITY_WEIGHT, protoC9a, protoC9c, SecurityLevel.toNum]
  have hsel : CrossChainOptimizer.selectOptimalProtocol optC9 1 2 "tok" SecurityLevel.MEDIUM
      = .ok protoC9a := by
    simp only [CrossChainOptimizer.selectOptimalProtocol, hkey, havail,
      CrossChainOptimizer.reduceBest, hab]
    rw [if_neg (lt_irrefl _), if_neg (not_lt.mpr (le_of_lt hca))]
  exact ⟨⟨hkey, hsel⟩, c9_select_optimal_protocol optC9 1 2 "tok" SecurityLevel.MEDIUM
    routeC9 protoC9a hkey hsel⟩
